import Mathlib

/-!
Verification of the routing simulation in `Experiment_06/calculator.js`.

Modelling choices:
- JS `Map` objects (routing tables, neighbor registries) are insertion-ordered
  association lists; `mapSet` mirrors `Map.set` (update in place on an existing
  key, append on a fresh key), `mapGet` mirrors `Map.get`, membership of a key
  mirrors `Map.has`.
- Routers hold direct references to their neighbors in JS; since router names
  are the keys of every neighbor map, the network is modelled as a list of
  routers addressed by name, with neighbor registries storing names.
- `receivePacket` is a TTL-bounded recursion in JS; it is modelled as a
  fuel-indexed function where the fuel `ttl.toNat + 1` provably suffices.
  The function threads the network and the packet and also returns the trace
  of observable events (the console output of the JS code).
- JS strings are Lean strings; `String.split` on a dot is modelled on the
  character list, matching the JS semantics of `split`, `slice` and `join`.
-/

/-- `mapSet m k v` is JS `m.set(k, v)` on an insertion-ordered map:
the value is replaced in place when the key exists, otherwise the pair is
appended at the end. -/
def mapSet (m : List (String × String)) (k v : String) : List (String × String) :=
  if m.any (fun e => e.1 = k) then
    m.map (fun e => if e.1 = k then (k, v) else e)
  else
    m ++ [(k, v)]

/-- `mapGet m k` is JS `m.get(k)`: the value of the first entry whose key is `k`. -/
def mapGet (m : List (String × String)) (k : String) : Option String :=
  (m.find? (fun e => e.1 = k)).map (fun e => e.2)

/-- A network packet: `new Packet(sourceIp, destinationIp, content)` state. -/
structure Packet where
  sourceIp : String
  destinationIp : String
  content : String
  ttl : Int
deriving DecidableEq

/-- The `Packet` constructor: `ttl` is initialized to the constant 32. -/
def mkPacket (s d c : String) : Packet :=
  { sourceIp := s, destinationIp := d, content := c, ttl := 32 }

/-- A router: its name, its routing table (destination network prefix to next
hop name) and its registered neighbors in insertion order. -/
structure Router where
  name : String
  routingTable : List (String × String)
  neighbors : List String
deriving DecidableEq

/-- The `Router` constructor: empty routing table, no neighbors. -/
def mkRouter (n : String) : Router :=
  { name := n, routingTable := [], neighbors := [] }

/-- `addNeighbor`: registers the peer under its name in this router map of
neighbors (`Map.set` keyed by the peer name). -/
def Router.addNeighbor (r : Router) (peerName : String) : Router :=
  { r with neighbors := if peerName ∈ r.neighbors then r.neighbors else r.neighbors ++ [peerName] }

/-- `receiveRoutingUpdate(networkPrefix, nextHop, metric = 1)`: unconditionally
stores `routingTable.set(networkPrefix, nextHop)`; the metric is ignored. -/
def Router.receiveRoutingUpdate (r : Router) (pfx nextHop : String) (metric : Nat) : Router :=
  { r with routingTable := mapSet r.routingTable pfx nextHop }

/-- JS `ip.split('.')` on the character list: splitting at every dot,
keeping empty components, so the result is always nonempty. -/
def splitOnDot : List Char → List (List Char)
  | [] => [[]]
  | c :: cs =>
    if c = '.' then
      [] :: splitOnDot cs
    else
      match splitOnDot cs with
      | [] => [[c]]
      | h :: t => (c :: h) :: t

/-- JS `parts.join('.')` on character lists. -/
def joinDots : List (List Char) → List Char
  | [] => []
  | [x] => x
  | x :: xs => x ++ '.' :: joinDots xs

/-- `getNetworkPrefix(ip)`: `ip.split('.').slice(0, 3).join('.') + '.0/24'`. -/
def getNetworkPrefix (ip : String) : String :=
  String.mk (joinDots ((splitOnDot ip.toList).take 3) ++ (".0/24").toList)

/-- The network: the routers of the simulation, addressed by name. -/
abbrev Network := List Router

/-- Looks a router up by name. -/
def getR (net : Network) (n : String) : Option Router :=
  net.find? (fun r => r.name = n)

/-- Updates the first router with the given name in place. -/
def updateR (net : Network) (n : String) (f : Router → Router) : Network :=
  match net with
  | [] => []
  | r :: rs => if r.name = n then f r :: rs else r :: updateR rs n f

/-- Driver step `self.addNeighbor(peer)` on the network. -/
def Network.addNeighbor (net : Network) (selfName peerName : String) : Network :=
  updateR net selfName (fun r => r.addNeighbor peerName)

/-- `target.receiveRoutingUpdate(pfx, nextHop, metric)` on the network. -/
def Network.receiveRoutingUpdate (net : Network) (target pfx nextHop : String) (metric : Nat) :
    Network :=
  updateR net target (fun r => r.receiveRoutingUpdate pfx nextHop metric)

/-- The updates sent by `advertiseRoutes()`: for every `(pfx, nextHop)` entry
of the routing table (outer loop), for every registered neighbor except the
one equal to `nextHop` (split horizon, inner loop), the triple
`(neighbor, pfx, selfName)` meaning `neighbor.receiveRoutingUpdate(pfx, selfName)`. -/
def advertiseSends (r : Router) : List (String × String × String) :=
  r.routingTable.flatMap (fun e =>
    (r.neighbors.filter (fun nb => nb != e.2)).map (fun nb => (nb, e.1, r.name)))

/-- `advertiseRoutes()` on the network: the sends are applied in order; each
one calls `receiveRoutingUpdate` on the target with the default metric 1. -/
def Network.advertiseRoutes (net : Network) (selfName : String) : Network :=
  match getR net selfName with
  | none => net
  | some r =>
      (advertiseSends r).foldl
        (fun n s => Network.receiveRoutingUpdate n s.1 s.2.1 s.2.2 1) net

/-- The observable events of the JS console output during packet forwarding. -/
inductive Event where
  | recv : String → Event
  | dropTTL : String → Event
  | forward : String → String → Event
  | deliver : String → Event
  | dropNoRoute : String → Event
deriving DecidableEq

/-- `receivePacket(packet)` with explicit fuel. The JS method decrements the
packet ttl, drops on `ttl <= 0`, looks the destination network up in the
routing table, forwards to the next hop when it is a registered neighbor,
delivers locally when it is not, and drops when no route exists. The fuel
only bounds the recursion depth; `receivePacketFuel_irrel` shows the result
does not depend on it once it exceeds `ttl.toNat`. -/
def receivePacketFuel : Nat → Network → String → Packet → Network × Packet × List Event
  | 0, net, _, p => (net, p, [])
  | fuel + 1, net, name, p =>
    match getR net name with
    | none => (net, p, [])
    | some r =>
      let p2 : Packet := { p with ttl := p.ttl - 1 }
      if p2.ttl ≤ 0 then
        (net, p2, [Event.recv name, Event.dropTTL name])
      else
        match mapGet r.routingTable (getNetworkPrefix p.destinationIp) with
        | none => (net, p2, [Event.recv name, Event.dropNoRoute name])
        | some nextHop =>
          if nextHop ∈ r.neighbors then
            let res := receivePacketFuel fuel net nextHop p2
            (res.1, res.2.1, Event.recv name :: Event.forward name nextHop :: res.2.2)
          else
            (net, p2, [Event.recv name, Event.deliver name])

/-- `router.receivePacket(packet)` on the network, entered at the named
router: the fuel `ttl.toNat + 1` always suffices. -/
def Network.receivePacket (net : Network) (name : String) (p : Packet) :
    Network × Packet × List Event :=
  receivePacketFuel (p.ttl.toNat + 1) net name p

/-- The number of `receivePacket` invocations recorded in a trace. -/
def countRecv (tr : List Event) : Nat :=
  (tr.filter (fun e => match e with | Event.recv _ => true | _ => false)).length

/-- The driver of `runSimulation()` up to the seeding of the local routes:
three routers, the chain R1 - R2 - R3 wired in both directions, and each
router seeded with its own /24 network. -/
def simSetup : Network :=
  let n : Network := [mkRouter "R1", mkRouter "R2", mkRouter "R3"]
  let n := Network.addNeighbor n "R1" "R2"
  let n := Network.addNeighbor n "R2" "R1"
  let n := Network.addNeighbor n "R2" "R3"
  let n := Network.addNeighbor n "R3" "R2"
  let n := Network.receiveRoutingUpdate n "R1" "192.168.1.0/24" "R1" 1
  let n := Network.receiveRoutingUpdate n "R2" "192.168.2.0/24" "R2" 1
  let n := Network.receiveRoutingUpdate n "R3" "192.168.3.0/24" "R3" 1
  n

/-- The advertisement rounds of `runSimulation()` in driver order. -/
def simConverged : Network :=
  ((simSetup.advertiseRoutes "R1").advertiseRoutes "R3").advertiseRoutes "R2"

/-- The packet injection of `runSimulation()`. -/
def simResult : Network × Packet × List Event :=
  Network.receivePacket simConverged "R1" (mkPacket "192.168.1.10" "192.168.3.15" "Hello World!")

/-- The routing table of the named router (empty when the name is unknown). -/
def tableOf (net : Network) (n : String) : List (String × String) :=
  match getR net n with
  | none => []
  | some r => r.routingTable

/-! ### Lemmas about the insertion-ordered map operations -/

lemma bool_eq_false {b : Bool} (h : ¬ b = true) : b = false := by
  cases b
  · rfl
  · exact absurd rfl h

lemma find?_map_set_of_any (m : List (String × String)) (k v : String)
    (h : m.any (fun e => e.1 = k) = true) :
    (m.map (fun e => if e.1 = k then (k, v) else e)).find? (fun e => e.1 = k) = some (k, v) := by
  induction m with
  | nil => simp at h
  | cons e es ih =>
    by_cases he : e.1 = k
    · simp [he]
    · have h2 : es.any (fun e => e.1 = k) = true := by
        simpa [List.any_cons, he] using h
      simpa [he] using ih h2

lemma find?_append_last_of_not_any (m : List (String × String)) (k v : String)
    (h : m.any (fun e => e.1 = k) = false) :
    (m ++ [(k, v)]).find? (fun e => e.1 = k) = some (k, v) := by
  induction m with
  | nil => simp
  | cons e es ih =>
    have he : ¬ e.1 = k := by
      intro hc
      simp [List.any_cons, hc] at h
    have h2 : es.any (fun e => e.1 = k) = false := by
      simpa [List.any_cons, he] using h
    simpa [he] using ih h2

lemma mapGet_mapSet_self (m : List (String × String)) (k v : String) :
    mapGet (mapSet m k v) k = some v := by
  unfold mapSet mapGet
  by_cases h : m.any (fun e => e.1 = k)
  · rw [if_pos h, find?_map_set_of_any m k v h]
    rfl
  · rw [if_neg h, find?_append_last_of_not_any m k v (bool_eq_false h)]
    rfl

lemma find?_map_set_ne (m : List (String × String)) (k v k2 : String) (h : k2 ≠ k) :
    (m.map (fun e => if e.1 = k then (k, v) else e)).find? (fun e => e.1 = k2) =
      m.find? (fun e => e.1 = k2) := by
  induction m with
  | nil => rfl
  | cons e es ih =>
    simp only [List.map_cons]
    by_cases he : e.1 = k
    · have h1 : ¬ ((k, v).1 = k2) := fun hc => h hc.symm
      have h2 : ¬ (e.1 = k2) := by
        rw [he]
        exact fun hc => h hc.symm
      rw [if_pos he, List.find?_cons_of_neg _ (by simpa using h1),
        List.find?_cons_of_neg _ (by simpa using h2), ih]
    · rw [if_neg he]
      by_cases he2 : e.1 = k2
      · rw [List.find?_cons_of_pos _ (by simpa using he2),
          List.find?_cons_of_pos _ (by simpa using he2)]
      · rw [List.find?_cons_of_neg _ (by simpa using he2),
          List.find?_cons_of_neg _ (by simpa using he2), ih]

lemma find?_append_last_ne (m : List (String × String)) (k v k2 : String) (h : k2 ≠ k) :
    (m ++ [(k, v)]).find? (fun e => e.1 = k2) = m.find? (fun e => e.1 = k2) := by
  rw [List.find?_append]
  have h1 : ([(k, v)] : List (String × String)).find? (fun e => e.1 = k2) = none := by
    have : ¬ ((k, v).1 = k2) := fun hc => h hc.symm
    simp [this]
  rw [h1]
  cases m.find? (fun e => e.1 = k2) <;> rfl

lemma mapGet_mapSet_ne (m : List (String × String)) (k v k2 : String) (h : k2 ≠ k) :
    mapGet (mapSet m k v) k2 = mapGet m k2 := by
  unfold mapSet mapGet
  by_cases ha : m.any (fun e => e.1 = k)
  · rw [if_pos ha, find?_map_set_ne m k v k2 h]
  · rw [if_neg ha, find?_append_last_ne m k v k2 h]

lemma keys_mapSet (m : List (String × String)) (k v : String) :
    (mapSet m k v).map Prod.fst =
      if m.any (fun e => e.1 = k) then m.map Prod.fst else m.map Prod.fst ++ [k] := by
  unfold mapSet
  by_cases h : m.any (fun e => e.1 = k)
  · rw [if_pos h, if_pos h, List.map_map]
    refine List.map_congr_left (fun e _ => ?_)
    by_cases he : e.1 = k <;> simp [he]
  · rw [if_neg h, if_neg h]
    simp

lemma nodup_keys_mapSet (m : List (String × String)) (k v : String)
    (h : (m.map Prod.fst).Nodup) : ((mapSet m k v).map Prod.fst).Nodup := by
  rw [keys_mapSet]
  by_cases ha : m.any (fun e => e.1 = k)
  · rwa [if_pos ha]
  · rw [if_neg ha]
    have hk : k ∉ m.map Prod.fst := by
      intro hc
      rcases List.mem_map.1 hc with ⟨e, he, hek⟩
      exact ha (List.any_eq_true.2 ⟨e, he, by simp [hek]⟩)
    refine List.Nodup.append h (List.nodup_singleton k) ?_
    intro a ha2 hb
    rw [List.mem_singleton] at hb
    exact hk (hb ▸ ha2)

lemma nodup_keys_mem_eq {m : List (String × String)} (h : (m.map Prod.fst).Nodup)
    {k v1 v2 : String} (h1 : (k, v1) ∈ m) (h2 : (k, v2) ∈ m) : v1 = v2 := by
  induction m with
  | nil => simp at h1
  | cons e es ih =>
    have hnd : e.1 ∉ es.map Prod.fst := (List.nodup_cons.1 h).1
    rcases List.mem_cons.1 h1 with he1 | he1 <;> rcases List.mem_cons.1 h2 with he2 | he2
    · exact (Prod.ext_iff.1 (he1.trans he2.symm)).2
    · have hk : (k : String) ∈ es.map Prod.fst := List.mem_map_of_mem Prod.fst he2
      rw [← he1] at hnd
      exact absurd hk hnd
    · have hk : (k : String) ∈ es.map Prod.fst := List.mem_map_of_mem Prod.fst he1
      rw [← he2] at hnd
      exact absurd hk hnd
    · exact ih (List.nodup_cons.1 h).2 he1 he2

/-- Claim C5: `receiveRoutingUpdate(prefix, nextHop)` unconditionally sets
`routingTable[prefix] = nextHop`, overwriting any existing entry for that
prefix without any metric comparison; entries for other prefixes are
untouched; two successive updates to the same prefix leave the second next
hop; key uniqueness of the table is preserved, so at most one next hop is
recorded per prefix and the last write always wins. -/
theorem routing_update_overwrite (r : Router) (pfx nh nh2 : String) (m m2 : Nat) :
    mapGet (r.receiveRoutingUpdate pfx nh m).routingTable pfx = some nh ∧
    (∀ k, k ≠ pfx → mapGet (r.receiveRoutingUpdate pfx nh m).routingTable k =
      mapGet r.routingTable k) ∧
    mapGet ((r.receiveRoutingUpdate pfx nh m).receiveRoutingUpdate pfx nh2 m2).routingTable pfx =
      some nh2 ∧
    ((r.routingTable.map Prod.fst).Nodup →
      ((r.receiveRoutingUpdate pfx nh m).routingTable.map Prod.fst).Nodup) :=
  ⟨mapGet_mapSet_self _ _ _,
   fun _ hk => mapGet_mapSet_ne _ _ _ _ hk,
   mapGet_mapSet_self _ _ _,
   fun hn => nodup_keys_mapSet _ _ _ hn⟩

/-- Witness for C5 on a concrete router: overwrite, noninterference with a
different key, last write wins across two updates, and key uniqueness. -/
theorem routing_update_overwrite_witness :
    mapGet ((mkRouter "A").receiveRoutingUpdate "10.0.0.0/24" "B" 1).routingTable
      "10.0.0.0/24" = some "B" ∧
    mapGet ((mkRouter "A").receiveRoutingUpdate "10.0.0.0/24" "B" 1).routingTable
      "10.0.1.0/24" = mapGet (mkRouter "A").routingTable "10.0.1.0/24" ∧
    mapGet (((mkRouter "A").receiveRoutingUpdate "10.0.0.0/24" "B" 1).receiveRoutingUpdate
      "10.0.0.0/24" "C" 7).routingTable "10.0.0.0/24" = some "C" ∧
    (((mkRouter "A").receiveRoutingUpdate "10.0.0.0/24" "B" 1).routingTable.map
      Prod.fst).Nodup :=
  ⟨(routing_update_overwrite (mkRouter "A") "10.0.0.0/24" "B" "C" 1 7).1,
   (routing_update_overwrite (mkRouter "A") "10.0.0.0/24" "B" "C" 1 7).2.1
     "10.0.1.0/24" (by decide),
   (routing_update_overwrite (mkRouter "A") "10.0.0.0/24" "B" "C" 1 7).2.2.1,
   (routing_update_overwrite (mkRouter "A") "10.0.0.0/24" "B" "C" 1 7).2.2.2 (by decide)⟩

/-- Claim C9: the optional metric argument of `receiveRoutingUpdate` influences
nothing: for every router state, prefix and next hop, any two metric values
(including the default 1 used when the argument is omitted) produce identical
resulting router states. -/
theorem metric_noninterference (r : Router) (pfx nh : String) (m1 m2 : Nat) :
    r.receiveRoutingUpdate pfx nh m1 = r.receiveRoutingUpdate pfx nh m2 := rfl

/-- Claim C1: split horizon. For a router whose routing table has unique keys,
an entry `(pfx, nh)` of the table and a registered neighbor `nb`,
`advertiseRoutes()` sends `receiveRoutingUpdate(pfx, selfName)` to `nb` exactly
when `nb` differs from the recorded next hop `nh`; moreover every send carries
the advertising router name and targets a registered neighbor. -/
theorem advertise_split_horizon (r : Router) (pfx nh nb : String)
    (hnodup : (r.routingTable.map Prod.fst).Nodup)
    (hmem : (pfx, nh) ∈ r.routingTable) (hnb : nb ∈ r.neighbors) :
    ((nb, pfx, r.name) ∈ advertiseSends r ↔ nb ≠ nh) ∧
    (∀ t q a, (t, q, a) ∈ advertiseSends r → a = r.name ∧ t ∈ r.neighbors) := by
  constructor
  · constructor
    · intro hin
      rcases List.mem_flatMap.1 hin with ⟨e, he, hmap⟩
      rcases List.mem_map.1 hmap with ⟨nb2, hfil, heq⟩
      simp only [Prod.mk.injEq] at heq
      obtain ⟨rfl, hq, -⟩ := heq
      have hfil2 := List.mem_filter.1 hfil
      have hne2 : nb2 ≠ e.2 := bne_iff_ne.mp hfil2.2
      have he2 : (pfx, e.2) ∈ r.routingTable := by
        rw [← hq]
        exact he
      have hv : e.2 = nh := nodup_keys_mem_eq hnodup he2 hmem
      rw [← hv]
      exact hne2
    · intro hne
      refine List.mem_flatMap.2 ⟨(pfx, nh), hmem, ?_⟩
      refine List.mem_map.2 ⟨nb, ?_, rfl⟩
      refine List.mem_filter.2 ⟨hnb, ?_⟩
      exact bne_iff_ne.mpr hne
  · intro t q a hin
    rcases List.mem_flatMap.1 hin with ⟨e, he, hmap⟩
    rcases List.mem_map.1 hmap with ⟨nb2, hfil, heq⟩
    simp only [Prod.mk.injEq] at heq
    obtain ⟨rfl, -, hname⟩ := heq
    refine ⟨hname.symm, ?_⟩
    exact (List.mem_filter.1 hfil).1

/-- Witness for C1 on a concrete router: with table entry `(p1, A)` and
neighbors `A` and `B`, the advertisement for `p1` is sent to `B` and withheld
from `A`. -/
theorem advertise_split_horizon_witness :
    (("B", "p1", "S") ∈
        advertiseSends { name := "S", routingTable := [("p1", "A")], neighbors := ["A", "B"] }
      ↔ "B" ≠ "A") ∧
    ¬ (("A", "p1", "S") ∈
        advertiseSends { name := "S", routingTable := [("p1", "A")], neighbors := ["A", "B"] }) := by
  constructor
  · exact (advertise_split_horizon
      { name := "S", routingTable := [("p1", "A")], neighbors := ["A", "B"] }
      "p1" "A" "B" (by decide) (by decide) (by decide)).1
  · intro hc
    exact absurd rfl ((advertise_split_horizon
      { name := "S", routingTable := [("p1", "A")], neighbors := ["A", "B"] }
      "p1" "A" "A" (by decide) (by decide) (by decide)).1.mp hc)

/-! ### Lemmas about packet forwarding -/

/-- Recognizes the TTL-expiry drop event. -/
def isDropTTL : Event → Bool
  | Event.dropTTL _ => true
  | _ => false

lemma receivePacketFuel_none (fl : Nat) (net : Network) (nm : String) (q : Packet)
    (hr : getR net nm = none) : receivePacketFuel fl net nm q = (net, q, []) := by
  cases fl with
  | zero => rfl
  | succ f => simp [receivePacketFuel, hr]

lemma receivePacketFuel_net (fl : Nat) (net : Network) (nm : String) (q : Packet) :
    (receivePacketFuel fl net nm q).1 = net := by
  induction fl generalizing nm q with
  | zero => rfl
  | succ f ih =>
    rw [receivePacketFuel]
    cases hr : getR net nm with
    | none => rfl
    | some r =>
      by_cases ht : (q.ttl - 1 : Int) ≤ 0
      · simp [ht]
      · cases hm : mapGet r.routingTable (getNetworkPrefix q.destinationIp) with
        | none => simp [ht, hm]
        | some nextHop =>
          by_cases hn : nextHop ∈ r.neighbors
          · simpa [ht, hm, hn] using ih nextHop { q with ttl := q.ttl - 1 }
          · simp [ht, hm, hn]

lemma receivePacketFuel_fields (fl : Nat) (net : Network) (nm : String) (q : Packet) :
    (receivePacketFuel fl net nm q).2.1.sourceIp = q.sourceIp ∧
    (receivePacketFuel fl net nm q).2.1.destinationIp = q.destinationIp ∧
    (receivePacketFuel fl net nm q).2.1.content = q.content := by
  induction fl generalizing nm q with
  | zero => exact ⟨rfl, rfl, rfl⟩
  | succ f ih =>
    rw [receivePacketFuel]
    cases hr : getR net nm with
    | none => exact ⟨rfl, rfl, rfl⟩
    | some r =>
      by_cases ht : (q.ttl - 1 : Int) ≤ 0
      · simp [ht]
      · cases hm : mapGet r.routingTable (getNetworkPrefix q.destinationIp) with
        | none => simp [ht, hm]
        | some nextHop =>
          by_cases hn : nextHop ∈ r.neighbors
          · simpa [ht, hm, hn] using ih nextHop { q with ttl := q.ttl - 1 }
          · simp [ht, hm, hn]

lemma receivePacketFuel_ttl_count (fl : Nat) (net : Network) (nm : String) (q : Packet) :
    (receivePacketFuel fl net nm q).2.1.ttl =
      q.ttl - countRecv (receivePacketFuel fl net nm q).2.2 := by
  induction fl generalizing nm q with
  | zero => simp [receivePacketFuel, countRecv]
  | succ f ih =>
    rw [receivePacketFuel]
    cases hr : getR net nm with
    | none => simp [countRecv]
    | some r =>
      by_cases ht : (q.ttl - 1 : Int) ≤ 0
      · simp [ht, countRecv]
      · cases hm : mapGet r.routingTable (getNetworkPrefix q.destinationIp) with
        | none => simp [ht, hm, countRecv]
        | some nextHop =>
          by_cases hn : nextHop ∈ r.neighbors
          · have h2 := ih nextHop { q with ttl := q.ttl - 1 }
            simp only [countRecv] at h2 ⊢
            simp [ht, hm, hn] at h2 ⊢
            omega
          · simp [ht, hm, hn, countRecv]

lemma receivePacketFuel_count_le (fl : Nat) (net : Network) (nm : String) (q : Packet)
    (hf : q.ttl.toNat < fl) :
    countRecv (receivePacketFuel fl net nm q).2.2 ≤ max q.ttl.toNat 1 := by
  induction fl generalizing nm q with
  | zero => omega
  | succ f ih =>
    rw [receivePacketFuel]
    cases hr : getR net nm with
    | none =>
      simp [countRecv]
    | some r =>
      by_cases ht : (q.ttl - 1 : Int) ≤ 0
      · simp [ht, countRecv]
      · cases hm : mapGet r.routingTable (getNetworkPrefix q.destinationIp) with
        | none => simp [ht, hm, countRecv]
        | some nextHop =>
          by_cases hn : nextHop ∈ r.neighbors
          · have hf2 : ({ q with ttl := q.ttl - 1 } : Packet).ttl.toNat < f := by
              simp only [Int.toNat_lt'] at hf ⊢
              omega
            have h2 := ih nextHop { q with ttl := q.ttl - 1 } hf2
            simp only [countRecv] at h2 ⊢
            simp [ht, hm, hn] at h2 ⊢
            omega
          · simp [ht, hm, hn, countRecv]

lemma receivePacketFuel_dropTTL_iff (fl : Nat) (net : Network) (nm : String) (q : Packet)
    (hf : q.ttl.toNat < fl) (hr : (getR net nm).isSome = true) :
    ((receivePacketFuel fl net nm q).2.2.any isDropTTL = true) ↔
      (receivePacketFuel fl net nm q).2.1.ttl ≤ 0 := by
  induction fl generalizing nm q with
  | zero => omega
  | succ f ih =>
    rw [receivePacketFuel]
    cases hE : getR net nm with
    | none =>
      rw [hE] at hr
      simp at hr
    | some r =>
      by_cases ht : (q.ttl - 1 : Int) ≤ 0
      · simp [ht, isDropTTL]
      · cases hm : mapGet r.routingTable (getNetworkPrefix q.destinationIp) with
        | none => simp [ht, hm, isDropTTL]
        | some nextHop =>
          by_cases hn : nextHop ∈ r.neighbors
          · cases hE2 : getR net nextHop with
            | none =>
              simp [ht, hm, hn, receivePacketFuel_none f net nextHop _ hE2, isDropTTL]
            | some r2 =>
              have hf2 : ({ q with ttl := q.ttl - 1 } : Packet).ttl.toNat < f := by
                simp only [Int.toNat_lt'] at hf ⊢
                omega
              have h2 := ih nextHop { q with ttl := q.ttl - 1 } hf2 (by simp [hE2])
              simpa [ht, hm, hn, isDropTTL] using h2
          · simp [ht, hm, hn, isDropTTL]

lemma receivePacketFuel_irrel (f1 f2 : Nat) (net : Network) (nm : String) (q : Packet)
    (h1 : q.ttl.toNat < f1) (h2 : q.ttl.toNat < f2) :
    receivePacketFuel f1 net nm q = receivePacketFuel f2 net nm q := by
  induction f1 generalizing f2 nm q with
  | zero => omega
  | succ f ih =>
    cases f2 with
    | zero => omega
    | succ g =>
      rw [receivePacketFuel]
      conv_rhs => rw [receivePacketFuel]
      cases hr : getR net nm with
      | none => rfl
      | some r =>
        by_cases ht : (q.ttl - 1 : Int) ≤ 0
        · simp [ht]
        · cases hm : mapGet r.routingTable (getNetworkPrefix q.destinationIp) with
          | none => simp [ht, hm]
          | some nextHop =>
            by_cases hn : nextHop ∈ r.neighbors
            · have hq2 : ({ q with ttl := q.ttl - 1 } : Packet).ttl.toNat < f := by
                simp only [Int.toNat_lt'] at h1 ⊢
                omega
              have hg2 : ({ q with ttl := q.ttl - 1 } : Packet).ttl.toNat < g := by
                simp only [Int.toNat_lt'] at h2 ⊢
                omega
              simp [ht, hm, hn, ih g nextHop { q with ttl := q.ttl - 1 } hq2 hg2]
            · simp [ht, hm, hn]

/-- Claim C2: TTL accounting. A packet is constructed with `ttl = 32`; every
`receivePacket` invocation decrements the ttl by exactly 1 and never
increments or resets it, so after a run the final ttl is the initial ttl
minus the number of invocations (with initial value 32 for a constructed
packet, forwarding through exactly N routers reduces it by exactly N); and
the run ends in a TTL-expiry drop exactly when the ttl is 0 or below after
the decrement of the last invocation. -/
theorem ttl_accounting :
    (∀ s d c, (mkPacket s d c).ttl = 32) ∧
    (∀ (net : Network) (nm : String) (p : Packet),
      (Network.receivePacket net nm p).2.1.ttl =
        p.ttl - countRecv (Network.receivePacket net nm p).2.2) ∧
    (∀ (net : Network) (nm : String) (p : Packet), (getR net nm).isSome = true →
      (((Network.receivePacket net nm p).2.2.any isDropTTL = true) ↔
        (Network.receivePacket net nm p).2.1.ttl ≤ 0)) :=
  ⟨fun _ _ _ => rfl,
   fun net nm p => receivePacketFuel_ttl_count _ net nm p,
   fun net nm p hr => receivePacketFuel_dropTTL_iff _ net nm p (Nat.lt_succ_self _) hr⟩

/-- Witness for C2 at a concrete one-router network: the constructed ttl, the
accounting equation and the drop characterization hold on the run. -/
theorem ttl_accounting_witness :
    (mkPacket "1.2.3.4" "5.6.7.8" "m").ttl = 32 ∧
    (Network.receivePacket [mkRouter "X"] "X" (mkPacket "1.2.3.4" "5.6.7.8" "m")).2.1.ttl =
      (mkPacket "1.2.3.4" "5.6.7.8" "m").ttl -
        countRecv (Network.receivePacket [mkRouter "X"] "X"
          (mkPacket "1.2.3.4" "5.6.7.8" "m")).2.2 ∧
    (((Network.receivePacket [mkRouter "X"] "X"
        (mkPacket "1.2.3.4" "5.6.7.8" "m")).2.2.any isDropTTL = true) ↔
      (Network.receivePacket [mkRouter "X"] "X"
        (mkPacket "1.2.3.4" "5.6.7.8" "m")).2.1.ttl ≤ 0) :=
  ⟨ttl_accounting.1 "1.2.3.4" "5.6.7.8" "m",
   ttl_accounting.2.1 [mkRouter "X"] "X" (mkPacket "1.2.3.4" "5.6.7.8" "m"),
   ttl_accounting.2.2 [mkRouter "X"] "X" (mkPacket "1.2.3.4" "5.6.7.8" "m") (by decide)⟩

/-- Claim C6: for any network topology and any routing-table contents,
including cycles, a packet injected through the constructor causes at most
32 `receivePacket` invocations: the TTL counter bounds the recursion. -/
theorem ttl_bounds_invocations (net : Network) (nm s d c : String) :
    countRecv (Network.receivePacket net nm (mkPacket s d c)).2.2 ≤ 32 := by
  have h := receivePacketFuel_count_le ((mkPacket s d c).ttl.toNat + 1) net nm
    (mkPacket s d c) (Nat.lt_succ_self _)
  simpa [Network.receivePacket, mkPacket] using h

/-- Claim C8: `receivePacket` returns no error and mutates no router state:
the network after a run (drop included) is exactly the network before it, and
the only packet field that changes is the ttl — source, destination and
content are preserved. In the model the operation is a total function whose
only outputs are the unchanged network, the packet and the event trace. -/
theorem receive_packet_atomicity (net : Network) (nm : String) (p : Packet) :
    (Network.receivePacket net nm p).1 = net ∧
    (Network.receivePacket net nm p).2.1.sourceIp = p.sourceIp ∧
    (Network.receivePacket net nm p).2.1.destinationIp = p.destinationIp ∧
    (Network.receivePacket net nm p).2.1.content = p.content :=
  ⟨receivePacketFuel_net _ net nm p,
   (receivePacketFuel_fields _ net nm p).1,
   (receivePacketFuel_fields _ net nm p).2.1,
   (receivePacketFuel_fields _ net nm p).2.2⟩

lemma receivePacket_step_forward (net : Network) (nm : String) (p : Packet) (r : Router)
    (nextHop : String) (hr : getR net nm = some r) (ht : ¬ (p.ttl - 1 ≤ 0))
    (hm : mapGet r.routingTable (getNetworkPrefix p.destinationIp) = some nextHop)
    (hn : nextHop ∈ r.neighbors) :
    Network.receivePacket net nm p =
      ((Network.receivePacket net nextHop { p with ttl := p.ttl - 1 }).1,
       (Network.receivePacket net nextHop { p with ttl := p.ttl - 1 }).2.1,
       Event.recv nm :: Event.forward nm nextHop ::
         (Network.receivePacket net nextHop { p with ttl := p.ttl - 1 }).2.2) := by
  unfold Network.receivePacket
  rw [receivePacketFuel]
  have hirr : receivePacketFuel p.ttl.toNat net nextHop { p with ttl := p.ttl - 1 } =
      receivePacketFuel (({ p with ttl := p.ttl - 1 } : Packet).ttl.toNat + 1) net nextHop
        { p with ttl := p.ttl - 1 } := by
    refine receivePacketFuel_irrel _ _ net nextHop _ ?_ (Nat.lt_succ_self _)
    simp only [Int.toNat_lt']
    omega
  simp [hr, ht, hm, hn, hirr]

/-- Claim C3: forwarding decision. When `receivePacket` runs at a router with
a ttl still strictly positive after the decrement: (a) if the destination
prefix is not a key of the routing table, the packet is dropped with no
forwarding and no further invocation; (b) if the recorded next hop is a
registered neighbor, that neighbor's `receivePacket` is invoked with the same
packet (its ttl decremented) and its outcome is the outcome of the run;
(c) otherwise the packet is delivered locally and no further call occurs. -/
theorem forwarding_decision (net : Network) (nm : String) (p : Packet) (r : Router)
    (hr : getR net nm = some r) (ht : ¬ (p.ttl - 1 ≤ 0)) :
    (mapGet r.routingTable (getNetworkPrefix p.destinationIp) = none →
      Network.receivePacket net nm p =
        (net, { p with ttl := p.ttl - 1 }, [Event.recv nm, Event.dropNoRoute nm])) ∧
    (∀ nextHop, mapGet r.routingTable (getNetworkPrefix p.destinationIp) = some nextHop →
      nextHop ∈ r.neighbors →
      Network.receivePacket net nm p =
        ((Network.receivePacket net nextHop { p with ttl := p.ttl - 1 }).1,
         (Network.receivePacket net nextHop { p with ttl := p.ttl - 1 }).2.1,
         Event.recv nm :: Event.forward nm nextHop ::
           (Network.receivePacket net nextHop { p with ttl := p.ttl - 1 }).2.2)) ∧
    (∀ nextHop, mapGet r.routingTable (getNetworkPrefix p.destinationIp) = some nextHop →
      nextHop ∉ r.neighbors →
      Network.receivePacket net nm p =
        (net, { p with ttl := p.ttl - 1 }, [Event.recv nm, Event.deliver nm])) := by
  refine ⟨?_, ?_, ?_⟩
  · intro hm
    unfold Network.receivePacket
    rw [receivePacketFuel]
    simp [hr, ht, hm]
  · intro nextHop hm hn
    exact receivePacket_step_forward net nm p r nextHop hr ht hm hn
  · intro nextHop hm hn
    unfold Network.receivePacket
    rw [receivePacketFuel]
    simp [hr, ht, hm, hn]

/-- Witness for C3, branch (a), at a one-router network with an empty routing
table: the packet is dropped for lack of a route after one invocation. -/
theorem forwarding_decision_witness :
    Network.receivePacket [mkRouter "X"] "X" (mkPacket "1.2.3.4" "5.6.7.8" "m") =
      ([mkRouter "X"],
       { mkPacket "1.2.3.4" "5.6.7.8" "m" with
           ttl := (mkPacket "1.2.3.4" "5.6.7.8" "m").ttl - 1 },
       [Event.recv "X", Event.dropNoRoute "X"]) :=
  (forwarding_decision [mkRouter "X"] "X" (mkPacket "1.2.3.4" "5.6.7.8" "m") (mkRouter "X")
    (by decide) (by decide)).1 (by decide)

/-- Claim C4: the end-to-end scenario of `runSimulation()`. After the three
advertisement rounds R1, R3, R2, the R1 table maps 192.168.3.0/24 to R2 and
the R3 table maps 192.168.1.0/24 to R2; the injected packet from 192.168.1.10
to 192.168.3.15 is received at R1, forwarded R1 to R2, R2 to R3, and delivered
locally at R3 with ttl 29. -/
theorem end_to_end_scenario :
    mapGet (tableOf simConverged "R1") "192.168.3.0/24" = some "R2" ∧
    mapGet (tableOf simConverged "R3") "192.168.1.0/24" = some "R2" ∧
    simResult.2.2 = [Event.recv "R1", Event.forward "R1" "R2", Event.recv "R2",
      Event.forward "R2" "R3", Event.recv "R3", Event.deliver "R3"] ∧
    simResult.2.1.ttl = 29 :=
  ⟨by decide, by decide, by decide, by decide⟩

/-! ### Lemmas about prefix derivation -/

lemma splitOnDot_append_dot (a rest : List Char) (ha : '.' ∉ a) :
    splitOnDot (a ++ '.' :: rest) = a :: splitOnDot rest := by
  induction a with
  | nil => simp [splitOnDot]
  | cons c a2 ih =>
    have hc : ¬ (c = '.') := fun h => ha (List.mem_cons.2 (Or.inl h.symm))
    have ha2 : '.' ∉ a2 := fun h => ha (List.mem_cons.2 (Or.inr h))
    rw [List.cons_append, splitOnDot, if_neg hc, ih ha2]

lemma joinDots_three (a b c : List Char) :
    joinDots [a, b, c] = a ++ '.' :: (b ++ '.' :: c) := rfl

/-- Claim C7: prefix derivation. For every well-formed dotted-quad address,
made of three dot-free octet strings followed by a final component,
`getNetworkPrefix` returns the first three octets joined by dots with
`.0/24` appended; in particular it maps 192.168.3.15 to 192.168.3.0/24. -/
theorem network_prefix_dotted_quad :
    (∀ (a b c d : List Char), '.' ∉ a → '.' ∉ b → '.' ∉ c →
      getNetworkPrefix (String.mk (a ++ ('.' :: (b ++ ('.' :: (c ++ ('.' :: d))))))) =
        String.mk (a ++ ('.' :: (b ++ ('.' :: (c ++ (".0/24").toList)))))) ∧
    getNetworkPrefix "192.168.3.15" = "192.168.3.0/24" := by
  constructor
  · intro a b c d ha hb hc
    unfold getNetworkPrefix
    have h1 : (String.mk (a ++ ('.' :: (b ++ ('.' :: (c ++ ('.' :: d))))))).toList =
        a ++ ('.' :: (b ++ ('.' :: (c ++ ('.' :: d))))) := rfl
    rw [h1, splitOnDot_append_dot a _ ha, splitOnDot_append_dot b _ hb,
      splitOnDot_append_dot c _ hc]
    rw [show ((a :: b :: c :: splitOnDot d).take 3) = [a, b, c] from rfl, joinDots_three]
    simp
  · decide

/-- Witness for C7 at the concrete address 192.168.3.15 written as four
dot-free octets. -/
theorem network_prefix_dotted_quad_witness :
    getNetworkPrefix (String.mk (['1', '9', '2'] ++
        ('.' :: (['1', '6', '8'] ++ ('.' :: (['3'] ++ ('.' :: ['1', '5']))))))) =
      String.mk (['1', '9', '2'] ++
        ('.' :: (['1', '6', '8'] ++ ('.' :: (['3'] ++ (".0/24").toList))))) :=
  network_prefix_dotted_quad.1 ['1', '9', '2'] ['1', '6', '8'] ['3'] ['1', '5']
    (by decide) (by decide) (by decide)

/-- Claim C10: `getNetworkPrefix` is total over arbitrary strings — in the
model it is a total function, and on any input the result ends in `.0/24`;
on malformed inputs it rejoins the first up-to-three dot-separated
components, as the concrete evaluations show. -/
theorem network_prefix_total (s : String) :
    (".0/24").toList <:+ (getNetworkPrefix s).toList ∧
    getNetworkPrefix "" = ".0/24" ∧
    getNetworkPrefix "abc" = "abc.0/24" ∧
    getNetworkPrefix "10.20" = "10.20.0/24" ∧
    getNetworkPrefix "1.2.3.4.5" = "1.2.3.0/24" :=
  ⟨⟨joinDots ((splitOnDot s.toList).take 3), rfl⟩, by decide, by decide, by decide, by decide⟩
